import Mathlib

/-!
# sct — set color temperature

A shallow embedding of `src/sct.c`.

Modelling conventions.

* C `int` values are `Int`; `/` and `%` on `int` are `Int.tdiv` and `Int.tmod`
  (truncation toward zero, as in C99). The result of `atoi` is reduced to the 32
  bits of an `int`.
* C `float` and `double` values are exact rationals (`ℚ`): a table literal such as
  `0.18172716` stands for that decimal number, and `+`, `-`, `*`, `/` are exact.
  Binary rounding of the floating-point unit is not modelled.
* An array subscript returns `Option`: `none` marks an access outside the array.
* The X11 calls are the environment: the gamma size reported for a CRTC is an
  input, and the curve handed to `XRRSetCrtcGamma` is the output.
-/

namespace Sct

/-! ## The whitepoint table -/

/-- An element of `whitepoints`: `struct { float r; float g; float b; }`. -/
structure Whitepoint where
  r : ℚ
  g : ℚ
  b : ℚ
deriving DecidableEq

/-- The table `whitepoints[]` (sct.c lines 32-54), 21 entries. -/
def whitepoints : List Whitepoint :=
  [ ⟨1.0, 0.0, 0.0⟩,
    ⟨1.00000000, 0.18172716, 0.00000000⟩, -- 1000K
    ⟨1.00000000, 0.42322816, 0.00000000⟩,
    ⟨1.00000000, 0.54360078, 0.08679949⟩,
    ⟨1.00000000, 0.64373109, 0.28819679⟩,
    ⟨1.00000000, 0.71976951, 0.42860152⟩,
    ⟨1.00000000, 0.77987699, 0.54642268⟩,
    ⟨1.00000000, 0.82854786, 0.64816570⟩,
    ⟨1.00000000, 0.86860704, 0.73688797⟩,
    ⟨1.00000000, 0.90198230, 0.81465502⟩,
    ⟨1.00000000, 0.93853986, 0.88130458⟩,
    ⟨1.00000000, 0.97107439, 0.94305985⟩,
    ⟨1.00000000, 1.00000000, 1.00000000⟩, -- 6500K
    ⟨0.95160805, 0.96983355, 1.00000000⟩,
    ⟨0.91194747, 0.94470005, 1.00000000⟩,
    ⟨0.87906581, 0.92357340, 1.00000000⟩,
    ⟨0.85139976, 0.90559011, 1.00000000⟩,
    ⟨0.82782969, 0.89011714, 1.00000000⟩,
    ⟨0.80753191, 0.87667891, 1.00000000⟩,
    ⟨0.78988728, 0.86491137, 1.00000000⟩, -- 10000K
    ⟨0.77442176, 0.85453121, 1.00000000⟩ ]

/-- The subscript `whitepoints[k]` for an `int` index `k`; `none` when `k` is
negative or past the last element. -/
def lookup (k : Int) : Option Whitepoint :=
  if 0 ≤ k then whitepoints[k.toNat]? else none

/-! ## Interpolation (sct.c lines 62-67) -/

/-- The value of `temp / 500` after `temp -= 500;`: the index of the lower entry. -/
def bucket (temp : Int) : Int :=
  Int.tdiv (temp - 500) 500

/-- The local `ratio`: `temp % 500 / 500.0` after `temp -= 500;`. -/
def ratio (temp : Int) : ℚ :=
  ((Int.tmod (temp - 500) 500 : Int) : ℚ) / 500.0

/-- The macro `AVG(c)` taken as an expression of its own:
`whitepoints[temp / 500].c * (1 - ratio) + whitepoints[temp / 500 + 1].c * ratio`. -/
def AVG (c : Whitepoint → ℚ) (temp : Int) : Option ℚ :=
  match lookup (bucket temp), lookup (bucket temp + 1) with
  | some lo, some hi => some (c lo * (1 - ratio temp) + c hi * ratio temp)
  | _, _ => none

/-- The initialiser `brightness * AVG(c)` as the compiler reads it. `AVG` is a
macro whose body is not parenthesised, so the text is
`brightness * whitepoints[temp / 500].c * (1 - ratio) + whitepoints[temp / 500 + 1].c * ratio`. -/
def gamma (c : Whitepoint → ℚ) (temp : Int) (brightness : ℚ) : Option ℚ :=
  match lookup (bucket temp), lookup (bucket temp + 1) with
  | some lo, some hi =>
      some (brightness * c lo * (1 - ratio temp) + c hi * ratio temp)
  | _, _ => none

/-- The three locals `gammar`, `gammag`, `gammab`. -/
structure Gains where
  gammar : ℚ
  gammag : ℚ
  gammab : ℚ
deriving DecidableEq

/-- Lines 62-67 of `sct_for_screen`: the channel gains for `temp` and `brightness`. -/
def gains (temp : Int) (brightness : ℚ) : Option Gains := do
  let gammar ← gamma Whitepoint.r temp brightness
  let gammag ← gamma Whitepoint.g temp brightness
  let gammab ← gamma Whitepoint.b temp brightness
  pure ⟨gammar, gammag, gammab⟩

/-- The interpolated multipliers `AVG(r)`, `AVG(g)`, `AVG(b)` for `temp`. -/
def multipliers (temp : Int) : Option Whitepoint := do
  let r ← AVG Whitepoint.r temp
  let g ← AVG Whitepoint.g temp
  let b ← AVG Whitepoint.b temp
  pure ⟨r, g, b⟩

/-! ## Ramp construction (sct.c lines 69-84) -/

/-- Conversion of a `double` to an `unsigned short` array element: the
fractional part is discarded (toward zero) and the integer is reduced to 16 bits. -/
def toUShort (x : ℚ) : Int :=
  (if 0 ≤ x then ⌊x⌋ else ⌈x⌉) % 65536

/-- The local `g` of the inner loop: `65535.0 * i / size`. -/
def g (size i : Nat) : ℚ :=
  65535.0 * (i : ℚ) / (size : ℚ)

/-- The `XRRCrtcGamma` curve of one CRTC: three arrays of `unsigned short`. -/
structure CrtcGamma where
  red : List Int
  green : List Int
  blue : List Int
deriving DecidableEq

/-- The inner loop (lines 75-80) for a CRTC whose gamma size is `size`. -/
def fillGamma (gs : Gains) (size : Nat) : CrtcGamma where
  red := (List.range size).map fun i => toUShort (g size i * gs.gammar)
  green := (List.range size).map fun i => toUShort (g size i * gs.gammag)
  blue := (List.range size).map fun i => toUShort (g size i * gs.gammab)

/-- The function `sct_for_screen`: `sizes` lists what `XRRGetCrtcGammaSize` reports for
each CRTC of the screen, and the result lists the curves passed to
`XRRSetCrtcGamma`, in the same order. -/
def sct_for_screen (sizes : List Nat) (temp : Int) (brightness : ℚ) :
    Option (List CrtcGamma) := do
  let gs ← gains temp brightness
  pure (sizes.map (fillGamma gs))

/-! ## Command line (sct.c lines 100-107) -/

/-- The C-locale `isspace`: space and the controls `\t \n \v \f \r`. -/
def isspace (c : Char) : Bool :=
  c.toNat == 32 || (9 ≤ c.toNat && c.toNat ≤ 13)

/-- The digits at the head of `cs`, read in base ten onto `acc`. -/
def readDigits : List Char → Int → Int
  | [], acc => acc
  | c :: cs, acc =>
      if c.isDigit then readDigits cs (acc * 10 + ((c.toNat : Int) - 48)) else acc

/-- The subject sequence of `strtol` in base ten, as a mathematical integer:
leading white space, an optional sign, then the longest run of decimal digits;
0 when there is none. -/
def strtolValue (s : String) : Int :=
  match s.toList.dropWhile isspace with
  | [] => 0
  | c :: cs =>
      if c = Char.ofNat 45 then -readDigits cs 0
      else if c = Char.ofNat 43 then readDigits cs 0
      else readDigits (c :: cs) 0

/-- The result of `strtol` for a value beyond `long` (64 bits): `LONG_MAX` or
`LONG_MIN`. -/
def strtolClamp (v : Int) : Int :=
  if v > 9223372036854775807 then 9223372036854775807
  else if v < -9223372036854775808 then -9223372036854775808
  else v

/-- Conversion of a `long` to `int`: the low 32 bits, read in two's complement. -/
def longToInt (v : Int) : Int :=
  (v + 2147483648) % 4294967296 - 2147483648

/-- The libc function `atoi`, that is `(int) strtol(s, NULL, 10)` as in glibc on a
64-bit platform: the decimal value, saturated to `long` and reduced to the 32 bits
of an `int`. -/
def atoi (s : String) : Int :=
  longToInt (strtolClamp (strtolValue s))

/-- The value of `temp` that `main` passes to `sct_for_screen` (lines 100-107);
`argv` holds the program name followed by the arguments, `argc` is its length. -/
def mainTemp (argv : List String) : Int :=
  let temp : Int := 6500
  let temp : Int :=
    match argv with
    | _ :: arg1 :: _ =>
        let temp := atoi arg1
        if arg1 = "-r" then 500 else temp
    | _ => temp
  if temp < 500 ∨ temp > 10000 then 6500 else temp

/-! ## The brightness argument (sct.c lines 109-113) -/

/-- A value of type `double` as `atof` can return it: a finite number (kept
exactly), an infinity, or a NaN. -/
inductive Double where
  | finite (q : ℚ)
  | posInf
  | negInf
  | nan
deriving DecidableEq

/-- The comparison `x < c` against a finite constant; false when `x` is a NaN. -/
def Double.lt (x : Double) (c : ℚ) : Bool :=
  match x with
  | .finite q => decide (q < c)
  | .posInf => false
  | .negInf => true
  | .nan => false

/-- The comparison `x > c` against a finite constant; false when `x` is a NaN. -/
def Double.gt (x : Double) (c : ℚ) : Bool :=
  match x with
  | .finite q => decide (q > c)
  | .posInf => true
  | .negInf => false
  | .nan => false

/-- Unary minus on a `double`. -/
def Double.neg (x : Double) : Double :=
  match x with
  | .finite q => .finite (-q)
  | .posInf => .negInf
  | .negInf => .posInf
  | .nan => .nan

/-- The value of a decimal digit. -/
def decDigit (c : Char) : Option Nat :=
  if c.isDigit then some (c.toNat - 48) else none

/-- The value of a hexadecimal digit. -/
def hexDigit (c : Char) : Option Nat :=
  if c.isDigit then some (c.toNat - 48)
  else if 97 ≤ c.toNat ∧ c.toNat ≤ 102 then some (c.toNat - 87)
  else if 65 ≤ c.toNat ∧ c.toNat ≤ 70 then some (c.toNat - 55)
  else none

/-- The digits at the head of the input, read in `base` onto `acc`: the value, the
number of digits read added to `n`, and the rest of the input. -/
def readNat (digit : Char → Option Nat) (base : Nat) :
    List Char → Nat → Nat → Nat × Nat × List Char
  | [], acc, n => (acc, n, [])
  | c :: cs, acc, n =>
      match digit c with
      | some d => readNat digit base cs (acc * base + d) (n + 1)
      | none => (acc, n, c :: cs)

/-- The digit sequence of a floating constant, with an optional radix point; `none`
when it holds no digit. -/
def readMantissa (digit : Char → Option Nat) (base : Nat) (cs : List Char) :
    Option (ℚ × List Char) :=
  let (a, n1, r1) := readNat digit base cs 0 0
  match r1 with
  | c :: r2 =>
      if c.toNat = 46 then
        let (b, n2, r3) := readNat digit base r2 a 0
        if n1 + n2 = 0 then none else some ((b : ℚ) / ((base ^ n2 : Nat) : ℚ), r3)
      else if n1 = 0 then none else some ((a : ℚ), r1)
  | [] => if n1 = 0 then none else some ((a : ℚ), r1)

/-- The optional exponent part: the letter `marker` in either case, an optional
sign, then decimal digits; 0 when the part is absent or has no digit. -/
def readExponent (marker : Char) (cs : List Char) : Int :=
  match cs with
  | c :: s :: ds =>
      if c.toLower = marker then
        if s.toNat = 45 then -((readNat decDigit 10 ds 0 0).1 : Int)
        else if s.toNat = 43 then ((readNat decDigit 10 ds 0 0).1 : Int)
        else ((readNat decDigit 10 (s :: ds) 0 0).1 : Int)
      else 0
  | _ => 0

/-- Whether the input begins with the letters `pat` (given in lower case), in
either case. -/
def startsWithNoCase (pat : List Char) (cs : List Char) : Bool :=
  (cs.take pat.length).map Char.toLower == pat

/-- A decimal floating constant; 0 when there is none. -/
def readDecimal (cs : List Char) : Double :=
  match readMantissa decDigit 10 cs with
  | some (m, r) => .finite (m * (10 : ℚ) ^ readExponent (Char.ofNat 101) r)
  | none => .finite 0

/-- The subject sequence of `strtod` after white space and sign: `inf`, `nan`, a
hexadecimal constant after `0x`, or a decimal constant. -/
def readUnsigned (cs : List Char) : Double :=
  if startsWithNoCase [Char.ofNat 105, Char.ofNat 110, Char.ofNat 102] cs then .posInf
  else if startsWithNoCase [Char.ofNat 110, Char.ofNat 97, Char.ofNat 110] cs then .nan
  else if startsWithNoCase [Char.ofNat 48, Char.ofNat 120] cs then
    match readMantissa hexDigit 16 (cs.drop 2) with
    | some (m, r) => .finite (m * (2 : ℚ) ^ readExponent (Char.ofNat 112) r)
    | none => .finite 0
  else readDecimal cs

/-- The libc function `atof`, that is `strtod(s, NULL)` (C99 7.20.1.3): leading
white space, an optional sign, then `inf`, `nan` or a floating constant; 0 when
nothing can be converted. A finite result is the exact value of the constant. -/
def atof (s : String) : Double :=
  match s.toList.dropWhile isspace with
  | [] => .finite 0
  | c :: cs =>
      if c.toNat = 45 then (readUnsigned cs).neg
      else if c.toNat = 43 then readUnsigned cs
      else readUnsigned (c :: cs)

/-- The value of `brightness` that `main` passes to `sct_for_screen`
(lines 109-113). -/
def mainBrightness (argv : List String) : Double :=
  let brightness : Double := .finite 1.0
  let brightness : Double :=
    match argv with
    | _ :: _ :: arg2 :: _ => atof arg2
    | _ => brightness
  if brightness.lt 0.1 || brightness.gt 1.0 then .finite 1.0 else brightness

/-! ## The program (sct.c lines 89-121) -/

/-- What the X server reports once the connection is open: for each screen
(`XScreenCount`), the gamma size of each of its CRTCs, in the order of `res->crtcs`. -/
structure Display where
  screens : List (List Nat)

/-- The exit status `EXIT_SUCCESS` of `<stdlib.h>`. -/
def EXIT_SUCCESS : Int := 0

/-- The exit status `EXIT_FAILURE` of `<stdlib.h>`. -/
def EXIT_FAILURE : Int := 1

/-- What a run of `main` does: the value it returns and, for each screen, the
curves submitted to its CRTCs (`none` where C leaves the computation undefined). -/
structure Run where
  status : Int
  submitted : List (Option (List CrtcGamma))

/-- The function `main`; `dpy` is the result of `XOpenDisplay(NULL)`, `none` for a
null pointer. `XRRSetCrtcGamma` returns `void`, so a run has no submission result
to read. With a NaN brightness the gains are NaN and their conversion to
`unsigned short` is undefined. -/
def main (dpy : Option Display) (argv : List String) : Run :=
  match dpy with
  | none => ⟨EXIT_FAILURE, []⟩
  | some d =>
      let temp := mainTemp argv
      let brightness := mainBrightness argv
      ⟨EXIT_SUCCESS, d.screens.map fun sizes =>
        match brightness with
        | .finite q => sct_for_screen sizes temp q
        | _ => none⟩

/-! ## Index arithmetic -/

theorem bucket_eq_ediv (T : Int) (h : 500 ≤ T) : bucket T = (T - 500) / 500 := by
  unfold bucket
  exact Int.tdiv_eq_ediv (by omega) (by omega)

theorem tmod_eq_emod_of_le (T : Int) (h : 500 ≤ T) :
    Int.tmod (T - 500) 500 = (T - 500) % 500 :=
  Int.tmod_eq_emod (by omega) (by omega)

theorem bucket_nonneg (T : Int) (h : 500 ≤ T) : 0 ≤ bucket T := by
  rw [bucket_eq_ediv T h]; omega

theorem bucket_le (T : Int) (h1 : 500 ≤ T) (h2 : T ≤ 10000) : bucket T ≤ 19 := by
  rw [bucket_eq_ediv T h1]; omega

theorem whitepoints_length : whitepoints.length = 21 := rfl

theorem lookup_isSome (k : Int) (h0 : 0 ≤ k) (h1 : k ≤ 20) : (lookup k).isSome = true := by
  obtain ⟨n, rfl⟩ := Int.eq_ofNat_of_zero_le h0
  have hn : n < 21 := by omega
  interval_cases n <;> rfl

theorem lookup_eq_none_of_neg (k : Int) (h : k < 0) : lookup k = none := by
  unfold lookup
  rw [if_neg (by omega)]

theorem lookup_eq_none_of_gt (k : Int) (h : 20 < k) : lookup k = none := by
  unfold lookup
  rw [if_pos (by omega)]
  exact List.getElem?_eq_none (by rw [whitepoints_length]; omega)

/-- C1: for 500 ≤ T ≤ 10000 the index `temp / 500` computed after `temp -= 500` is
`(T - 500) / 500` and lies in 0..19, so `whitepoints[bucket]` and
`whitepoints[bucket + 1]` are both inside the 21-entry table, and neither `AVG(c)`
nor the gains take the out-of-bounds branch. -/
theorem C1_bucket_within_table (T : Int) (h1 : 500 ≤ T) (h2 : T ≤ 10000) :
    bucket T = (T - 500) / 500 ∧ 0 ≤ bucket T ∧ bucket T ≤ 19 ∧
    whitepoints.length = 21 ∧
    (lookup (bucket T)).isSome = true ∧ (lookup (bucket T + 1)).isSome = true ∧
    (∀ c, (AVG c T).isSome = true) ∧ (multipliers T).isSome = true ∧
    (∀ brightness, (gains T brightness).isSome = true) ∧
    (∀ sizes brightness, (sct_for_screen sizes T brightness).isSome = true) := by
  have hb0 := bucket_nonneg T h1
  have hb1 := bucket_le T h1 h2
  have hlo := lookup_isSome (bucket T) hb0 (by omega)
  have hhi := lookup_isSome (bucket T + 1) (by omega) (by omega)
  obtain ⟨lo, hlo'⟩ := Option.isSome_iff_exists.mp hlo
  obtain ⟨hi, hhi'⟩ := Option.isSome_iff_exists.mp hhi
  refine ⟨bucket_eq_ediv T h1, hb0, hb1, rfl, hlo, hhi, ?_, ?_, ?_, ?_⟩
  · intro c; simp [AVG, hlo', hhi']
  · simp [multipliers, AVG, hlo', hhi']
  · intro b; simp [gains, gamma, hlo', hhi']
  · intro sizes b; simp [sct_for_screen, gains, gamma, hlo', hhi']

/-- Witness for C1 at T = 10000, the largest admitted temperature. -/
theorem C1_bucket_within_table_witness :
    bucket 10000 = (10000 - 500) / 500 ∧ 0 ≤ bucket 10000 ∧ bucket 10000 ≤ 19 ∧
    whitepoints.length = 21 ∧
    (lookup (bucket 10000)).isSome = true ∧ (lookup (bucket 10000 + 1)).isSome = true ∧
    (∀ c, (AVG c 10000).isSome = true) ∧ (multipliers 10000).isSome = true ∧
    (∀ brightness, (gains 10000 brightness).isSome = true) ∧
    (∀ sizes brightness, (sct_for_screen sizes 10000 brightness).isSome = true) :=
  C1_bucket_within_table 10000 (by decide) (by decide)

/-! ## The temperature argument -/

theorem mainTemp_singleton (prog : String) : mainTemp [prog] = 6500 := by
  simp [mainTemp]

theorem mainTemp_flag (prog : String) (rest : List String) :
    mainTemp (prog :: "-r" :: rest) = 500 := by
  simp [mainTemp]

theorem mainTemp_number (prog arg1 : String) (rest : List String) (h : arg1 ≠ "-r") :
    mainTemp (prog :: arg1 :: rest) =
      if atoi arg1 < 500 ∨ atoi arg1 > 10000 then 6500 else atoi arg1 := by
  simp [mainTemp, h]

theorem atoi_dash_r_append (t : String) : atoi ("-r" ++ t) = 0 := by
  have : ("-r" ++ t).toList = Char.ofNat 45 :: Char.ofNat 114 :: t.toList := by
    simp [String.toList]
  have hv : strtolValue ("-r" ++ t) = 0 := by
    unfold strtolValue
    rw [this]
    simp [List.dropWhile, isspace, readDigits]
  unfold atoi
  rw [hv]
  decide

theorem atoi_int_range (s : String) :
    -2147483648 ≤ atoi s ∧ atoi s ≤ 2147483647 := by
  unfold atoi longToInt
  omega

theorem dash_r_append_ne (t : String) (h : t ≠ "") : "-r" ++ t ≠ "-r" := by
  intro e
  apply h
  have h2 := congrArg String.length e
  simp at h2
  have : t.length = 0 := by
    have : "-r".length = 2 := by decide
    omega
  cases t with
  | mk l =>
    simp only [String.length] at this
    rw [List.length_eq_zero] at this
    subst this
    rfl

/-- C2: whatever the command line, the temperature `main` passes on lies in
[500, 10000]. It is 6500 when `argv[1]` is absent; it is 500 for the flag `-r`; and
for any other `argv[1]` it is the `int` that `atoi(argv[1])` returns when that
integer is in [500, 10000], and 6500 when it is 0 (nothing parsed) or otherwise
outside [500, 10000]. -/
theorem C2_main_temperature (argv : List String) :
    (500 ≤ mainTemp argv ∧ mainTemp argv ≤ 10000) ∧
    (argv.length ≤ 1 → mainTemp argv = 6500) ∧
    (∀ prog rest, argv = prog :: "-r" :: rest → mainTemp argv = 500) ∧
    (∀ prog arg1 rest, argv = prog :: arg1 :: rest → arg1 ≠ "-r" →
      (-2147483648 ≤ atoi arg1 ∧ atoi arg1 ≤ 2147483647) ∧
      (500 ≤ atoi arg1 ∧ atoi arg1 ≤ 10000 → mainTemp argv = atoi arg1) ∧
      (atoi arg1 = 0 → mainTemp argv = 6500) ∧
      (atoi arg1 < 500 ∨ 10000 < atoi arg1 → mainTemp argv = 6500)) := by
  refine ⟨?_, ?_, ?_, ?_⟩
  · match argv with
    | [] => decide
    | [prog] => rw [mainTemp_singleton]; decide
    | prog :: arg1 :: rest =>
      by_cases h : arg1 = "-r"
      · subst h; rw [mainTemp_flag]; decide
      · rw [mainTemp_number prog arg1 rest h]
        split_ifs with h' <;> omega
  · intro hlen
    match argv, hlen with
    | [], _ => decide
    | [prog], _ => exact mainTemp_singleton prog
  · rintro prog rest rfl
    exact mainTemp_flag prog rest
  · rintro prog arg1 rest rfl h
    rw [mainTemp_number prog arg1 rest h]
    refine ⟨atoi_int_range arg1, ?_, ?_, ?_⟩
    · intro h'; rw [if_neg (by omega)]
    · intro h'; rw [if_pos (by omega)]
    · intro h'; rw [if_pos (by omega)]

/-- C2 at the command lines the specification names (no argument, `abc`, `99999`,
an in-range number, `-r`) and at two decimal arguments beyond `int`:
`4294968296`, which `atoi` returns as 1000, and `99999999999999999999`, which it
returns as -1. -/
theorem C2_main_temperature_witness :
    mainTemp ["sct"] = 6500 ∧
    (atoi "abc" = 0 ∧ mainTemp ["sct", "abc"] = 6500) ∧
    (atoi "99999" = 99999 ∧ mainTemp ["sct", "99999"] = 6500) ∧
    (atoi "3000" = 3000 ∧ mainTemp ["sct", "3000"] = atoi "3000") ∧
    mainTemp ["sct", "-r"] = 500 ∧
    (atoi "4294968296" = 1000 ∧ mainTemp ["sct", "4294968296"] = atoi "4294968296") ∧
    (atoi "99999999999999999999" = -1 ∧
      mainTemp ["sct", "99999999999999999999"] = 6500) :=
  ⟨(C2_main_temperature ["sct"]).2.1 (by decide),
   ⟨by decide,
    ((C2_main_temperature ["sct", "abc"]).2.2.2 "sct" "abc" [] rfl (by decide)).2.2.1
      (by decide)⟩,
   ⟨by decide,
    ((C2_main_temperature ["sct", "99999"]).2.2.2 "sct" "99999" [] rfl (by decide)).2.2.2
      (by decide)⟩,
   ⟨by decide,
    ((C2_main_temperature ["sct", "3000"]).2.2.2 "sct" "3000" [] rfl (by decide)).2.1
      (by decide)⟩,
   (C2_main_temperature ["sct", "-r"]).2.2.1 "sct" [] rfl,
   ⟨by decide,
    ((C2_main_temperature ["sct", "4294968296"]).2.2.2 "sct" "4294968296" [] rfl
      (by decide)).2.1 (by decide)⟩,
   ⟨by decide,
    ((C2_main_temperature ["sct", "99999999999999999999"]).2.2.2 "sct"
      "99999999999999999999" [] rfl (by decide)).2.2.2 (by decide)⟩⟩

/-! ## Facts about the table and the interpolation weight -/

theorem ratio_eq (T : Int) (h : 500 ≤ T) :
    ratio T = (((T - 500) % 500 : Int) : ℚ) / 500 := by
  unfold ratio
  rw [tmod_eq_emod_of_le T h]
  norm_num

theorem ratio_nonneg (T : Int) (h : 500 ≤ T) : 0 ≤ ratio T := by
  rw [ratio_eq T h]
  have h0 : 0 ≤ (T - 500) % 500 := Int.emod_nonneg _ (by decide)
  have : (0 : ℚ) ≤ (((T - 500) % 500 : Int) : ℚ) := by exact_mod_cast h0
  positivity

theorem ratio_lt_one (T : Int) (h : 500 ≤ T) : ratio T < 1 := by
  rw [ratio_eq T h]
  have h0 : (T - 500) % 500 < 500 := Int.emod_lt_of_pos _ (by decide)
  have : (((T - 500) % 500 : Int) : ℚ) < 500 := by exact_mod_cast h0
  rw [div_lt_one (by norm_num)]
  exact this

theorem lookup_range (k : Int) (w : Whitepoint) (h : lookup k = some w) :
    0 ≤ k ∧ k ≤ 20 := by
  constructor
  · by_contra hk
    rw [lookup_eq_none_of_neg k (by omega)] at h
    exact Option.noConfusion h
  · by_contra hk
    rw [lookup_eq_none_of_gt k (by omega)] at h
    exact Option.noConfusion h

theorem lookup_bounds (k : Int) (w : Whitepoint) (h : lookup k = some w) :
    (0 ≤ w.r ∧ w.r ≤ 1) ∧ (0 ≤ w.g ∧ w.g ≤ 1) ∧ (0 ≤ w.b ∧ w.b ≤ 1) := by
  obtain ⟨h0, h1⟩ := lookup_range k w h
  obtain ⟨n, rfl⟩ := Int.eq_ofNat_of_zero_le h0
  have hn : n < 21 := by omega
  interval_cases n <;> simp [lookup, whitepoints] at h <;> subst h <;> norm_num

theorem lookup_natCast (n : Nat) : lookup (n : Int) = whitepoints[n]? := by
  simp [lookup]

theorem AVG_of_lookup (c : Whitepoint → ℚ) (T : Int) (lo hi : Whitepoint)
    (hlo : lookup (bucket T) = some lo) (hhi : lookup (bucket T + 1) = some hi) :
    AVG c T = some (c lo * (1 - ratio T) + c hi * ratio T) := by
  simp [AVG, hlo, hhi]

theorem gamma_of_lookup (c : Whitepoint → ℚ) (T : Int) (b : ℚ) (lo hi : Whitepoint)
    (hlo : lookup (bucket T) = some lo) (hhi : lookup (bucket T + 1) = some hi) :
    gamma c T b = some (b * c lo * (1 - ratio T) + c hi * ratio T) := by
  simp [gamma, hlo, hhi]

theorem bucket_boundary (k : Int) (h0 : 0 ≤ k) : bucket (500 + 500 * k) = k := by
  rw [bucket_eq_ediv _ (by omega)]; omega

theorem ratio_boundary (k : Int) (h0 : 0 ≤ k) : ratio (500 + 500 * k) = 0 := by
  rw [ratio_eq _ (by omega)]
  have : (500 + 500 * k - 500) % 500 = 0 := by omega
  rw [this]; simp

theorem multipliers_boundary (k : Int) (h0 : 0 ≤ k) (h1 : k ≤ 19) :
    multipliers (500 + 500 * k) = lookup k := by
  obtain ⟨lo, hlo⟩ := Option.isSome_iff_exists.mp (lookup_isSome k h0 (by omega))
  obtain ⟨hi, hhi⟩ := Option.isSome_iff_exists.mp (lookup_isSome (k + 1) (by omega) (by omega))
  have hb := bucket_boundary k h0
  have hr := ratio_boundary k h0
  simp [multipliers, AVG, hb, hr, hlo, hhi]

/-! ## The multipliers at 10000K -/

/-- C3 as stated fails: at T = 10000 the interpolated multipliers are not the last
table entry `whitepoints[20]` = (0.77442176, 0.85453121, 1.0). -/
theorem C3_counterexample :
    multipliers 10000 ≠ lookup 20 ∧
    multipliers 10000 ≠ some ⟨0.77442176, 0.85453121, 1.0⟩ := by
  have h := multipliers_boundary 19 (by decide) (by decide)
  have e : (500 + 500 * 19 : Int) = 10000 := by decide
  rw [e] at h
  rw [h]
  constructor
  · simp [lookup, whitepoints]
    norm_num
  · simp [lookup, whitepoints]
    norm_num

/-- C3, amended: at T = 10000 the index is 19 and the weight of the upper entry is
0, so the multipliers are `whitepoints[19]` = (0.78988728, 0.86491137, 1.0), the
entry the source marks `10000K`. Index k, for k in 1..19, is the entry used at
500 + 500 k kelvin (1000K, 1500K, ..., 10000K); `whitepoints[20]` =
(0.77442176, 0.85453121, 1.0) lies one step above the admitted range. -/
theorem C3_multipliers_at_10000 :
    bucket 10000 = 19 ∧ ratio 10000 = 0 ∧
    multipliers 10000 = lookup 19 ∧
    multipliers 10000 = some ⟨0.78988728, 0.86491137, 1.0⟩ ∧
    lookup 20 = some ⟨0.77442176, 0.85453121, 1.0⟩ ∧
    (∀ k : Int, 1 ≤ k → k ≤ 19 →
      500 + 500 * k ≤ 10000 ∧ bucket (500 + 500 * k) = k ∧
      multipliers (500 + 500 * k) = lookup k) := by
  have h := multipliers_boundary 19 (by decide) (by decide)
  have e : (500 + 500 * 19 : Int) = 10000 := by decide
  rw [e] at h
  refine ⟨by decide, ?_, h, ?_, ?_, ?_⟩
  · have := ratio_boundary 19 (by decide)
    rwa [e] at this
  · rw [h]; simp [lookup, whitepoints]; norm_num
  · simp [lookup, whitepoints]; norm_num
  · intro k h1 h19
    exact ⟨by omega, bucket_boundary k (by omega), multipliers_boundary k (by omega) h19⟩

/-! ## Facts about the ramp -/

theorem toUShort_of_nonneg_of_lt (x : ℚ) (h0 : 0 ≤ x) (h1 : x < 65536) :
    toUShort x = ⌊x⌋ := by
  unfold toUShort
  rw [if_pos h0]
  apply Int.emod_eq_of_lt (Int.floor_nonneg.mpr h0)
  rw [Int.floor_lt]
  exact_mod_cast h1

theorem g_eq (size i : Nat) : g size i = ((65535 * i : Nat) : ℚ) / (size : ℚ) := by
  unfold g
  push_cast
  norm_num

theorem g_nonneg (size i : Nat) : 0 ≤ g size i := by
  rw [g_eq]
  positivity

theorem g_lt (size i : Nat) (h : i < size) : g size i < 65535 := by
  rw [g_eq]
  have hs : (0 : ℚ) < size := by exact_mod_cast (by omega : 0 < size)
  rw [div_lt_iff₀ hs]
  have : (i : ℚ) < size := by exact_mod_cast h
  push_cast
  linarith

theorem floor_g (size i : Nat) : ⌊g size i⌋ = ((65535 * i / size : Nat) : Int) := by
  rw [g_eq, Rat.floor_natCast_div_natCast]
  norm_cast
  
theorem red_getElem? (gs : Gains) (size i : Nat) (h : i < size) :
    (fillGamma gs size).red[i]? = some (toUShort (g size i * gs.gammar)) := by
  simp [fillGamma, h]

theorem green_getElem? (gs : Gains) (size i : Nat) (h : i < size) :
    (fillGamma gs size).green[i]? = some (toUShort (g size i * gs.gammag)) := by
  simp [fillGamma, h]

theorem blue_getElem? (gs : Gains) (size i : Nat) (h : i < size) :
    (fillGamma gs size).blue[i]? = some (toUShort (g size i * gs.gammab)) := by
  simp [fillGamma, h]

theorem gains_6500 : gains 6500 1 = some ⟨1, 1, 1⟩ := by
  have hb : bucket 6500 = 12 := by decide
  have hr : ratio 6500 = 0 := by
    have := ratio_boundary 12 (by decide)
    simpa using this
  simp [gains, gamma, hb, hr, lookup, whitepoints]
  norm_num
  
theorem multipliers_6500 : multipliers 6500 = some ⟨1, 1, 1⟩ := by
  have h := multipliers_boundary 12 (by decide) (by decide)
  have e : (500 + 500 * 12 : Int) = 6500 := by decide
  rw [e] at h
  rw [h]
  simp [lookup, whitepoints]
  norm_num

theorem toUShort_g (size i : Nat) (h : i < size) :
    toUShort (g size i) = ((65535 * i / size : Nat) : Int) := by
  rw [toUShort_of_nonneg_of_lt _ (g_nonneg size i) (by linarith [g_lt size i h]), floor_g]

theorem fillGamma_unit (N : Nat) :
    fillGamma ⟨1, 1, 1⟩ N =
      ⟨(List.range N).map fun i => ((65535 * i / N : Nat) : Int),
       (List.range N).map fun i => ((65535 * i / N : Nat) : Int),
       (List.range N).map fun i => ((65535 * i / N : Nat) : Int)⟩ := by
  have key : ∀ i ∈ List.range N,
      toUShort (g N i * 1) = ((65535 * i / N : Nat) : Int) := by
    intro i hi
    rw [mul_one]
    exact toUShort_g N i (List.mem_range.mp hi)
  simp only [fillGamma, List.map_congr_left key]

/-! ## The neutral setting: 6500K at full brightness -/

/-- C4: at temperature 6500 and brightness 1 the multipliers and the gains are
exactly (1, 1, 1); for a CRTC of any gamma size N the three channels are the same
list of N values and entry i is the integer part of 65535 * i / N (natural-number
division); for N = 4 each channel is [0, 16383, 32767, 49151]. -/
theorem C4_neutral_curve (N : Nat) :
    multipliers 6500 = some ⟨1, 1, 1⟩ ∧ gains 6500 1 = some ⟨1, 1, 1⟩ ∧
    (∃ c, sct_for_screen [N] 6500 1 = some [c] ∧
      c.green = c.red ∧ c.blue = c.red ∧ c.red.length = N ∧
      ∀ i, i < N → c.red[i]? = some ((65535 * i / N : Nat) : Int)) ∧
    sct_for_screen [4] 6500 1 =
      some [⟨[0, 16383, 32767, 49151], [0, 16383, 32767, 49151],
             [0, 16383, 32767, 49151]⟩] := by
  refine ⟨multipliers_6500, gains_6500, ⟨fillGamma ⟨1, 1, 1⟩ N, ?_, ?_, ?_, ?_, ?_⟩, ?_⟩
  · simp [sct_for_screen, gains_6500]
  · rw [fillGamma_unit]
  · rw [fillGamma_unit]
  · simp [fillGamma]
  · intro i hi
    rw [fillGamma_unit]
    simp [hi]
  · simp only [sct_for_screen, gains_6500, Option.bind_eq_bind, Option.some_bind, List.map,
      fillGamma_unit]
    rfl

/-! ## Conversion of the product to a curve entry -/

/-- C5 as stated fails: with gain 1 (temperature 6500, brightness 1), ramp size 4 and
index 1 the product is 16383.75; the stored entry is 16383, the nearest integer is
16384. -/
theorem C5_counterexample :
    gains 6500 1 = some ⟨1, 1, 1⟩ ∧
    (fillGamma ⟨1, 1, 1⟩ 4).red[1]? = some 16383 ∧
    round (g 4 1 * (1 : ℚ)) = 16384 := by
  refine ⟨gains_6500, ?_, ?_⟩
  · rw [fillGamma_unit]; rfl
  · rw [round_eq, Int.floor_eq_iff]
    norm_num [g]

theorem product_range (size i : Nat) (h : i < size) (x : ℚ) (h0 : 0 ≤ x) (h1 : x ≤ 1) :
    0 ≤ g size i * x ∧ g size i * x < 65535 := by
  have hg0 := g_nonneg size i
  have hg1 := g_lt size i h
  constructor
  · positivity
  · calc g size i * x ≤ g size i * 1 := by gcongr
      _ = g size i := mul_one _
      _ < 65535 := hg1

theorem toUShort_product (size i : Nat) (h : i < size) (x : ℚ) (h0 : 0 ≤ x) (h1 : x ≤ 1) :
    toUShort (g size i * x) = ⌊g size i * x⌋ := by
  obtain ⟨h2, h3⟩ := product_range size i h x h0 h1
  exact toUShort_of_nonneg_of_lt _ h2 (by linarith)

/-- C5, amended: for every ramp size N > 0, index i < N and channel gains in [0, 1],
the stored curve value is the product g * gain with its fractional part discarded
(the integer part, not the nearest integer), where g = 65535 * i / N. -/
theorem C5_curve_value_truncated (gs : Gains) (N i : Nat) (hi : i < N)
    (hr : 0 ≤ gs.gammar ∧ gs.gammar ≤ 1) (hg : 0 ≤ gs.gammag ∧ gs.gammag ≤ 1)
    (hb : 0 ≤ gs.gammab ∧ gs.gammab ≤ 1) :
    (fillGamma gs N).red[i]? = some ⌊g N i * gs.gammar⌋ ∧
    (fillGamma gs N).green[i]? = some ⌊g N i * gs.gammag⌋ ∧
    (fillGamma gs N).blue[i]? = some ⌊g N i * gs.gammab⌋ := by
  rw [red_getElem? gs N i hi, green_getElem? gs N i hi, blue_getElem? gs N i hi,
    toUShort_product N i hi _ hr.1 hr.2, toUShort_product N i hi _ hg.1 hg.2,
    toUShort_product N i hi _ hb.1 hb.2]
  exact ⟨rfl, rfl, rfl⟩

/-- C5, amended, at gains (1, 1, 1), ramp size 4 and index 1. -/
theorem C5_curve_value_truncated_witness :
    (fillGamma ⟨1, 1, 1⟩ 4).red[1]? = some ⌊g 4 1 * (1 : ℚ)⌋ ∧
    (fillGamma ⟨1, 1, 1⟩ 4).green[1]? = some ⌊g 4 1 * (1 : ℚ)⌋ ∧
    (fillGamma ⟨1, 1, 1⟩ 4).blue[1]? = some ⌊g 4 1 * (1 : ℚ)⌋ :=
  C5_curve_value_truncated ⟨1, 1, 1⟩ 4 1 (by decide)
    ⟨zero_le_one, le_refl _⟩ ⟨zero_le_one, le_refl _⟩ ⟨zero_le_one, le_refl _⟩

/-! ## Bounds on the gains -/

theorem interp_bounds (b x y r : ℚ) (hb0 : 0 ≤ b) (hb1 : b ≤ 1) (hx0 : 0 ≤ x) (hx1 : x ≤ 1)
    (hy0 : 0 ≤ y) (hy1 : y ≤ 1) (hr0 : 0 ≤ r) (hr1 : r ≤ 1) :
    0 ≤ b * x * (1 - r) + y * r ∧ b * x * (1 - r) + y * r ≤ 1 := by
  have h1r : 0 ≤ 1 - r := by linarith
  have hbx0 : 0 ≤ b * x := mul_nonneg hb0 hx0
  have hbx1 : b * x ≤ 1 := by
    calc b * x ≤ 1 * 1 := by gcongr
      _ = 1 := one_mul 1
  constructor
  · positivity
  · have e1 : b * x * (1 - r) ≤ 1 * (1 - r) := by gcongr
    have e2 : y * r ≤ 1 * r := by gcongr
    linarith

theorem gains_of_lookup (T : Int) (b : ℚ) (lo hi : Whitepoint)
    (hlo : lookup (bucket T) = some lo) (hhi : lookup (bucket T + 1) = some hi) :
    gains T b = some
      ⟨b * lo.r * (1 - ratio T) + hi.r * ratio T,
       b * lo.g * (1 - ratio T) + hi.g * ratio T,
       b * lo.b * (1 - ratio T) + hi.b * ratio T⟩ := by
  simp [gains, gamma, hlo, hhi]

theorem multipliers_of_lookup (T : Int) (lo hi : Whitepoint)
    (hlo : lookup (bucket T) = some lo) (hhi : lookup (bucket T + 1) = some hi) :
    multipliers T = some
      ⟨lo.r * (1 - ratio T) + hi.r * ratio T,
       lo.g * (1 - ratio T) + hi.g * ratio T,
       lo.b * (1 - ratio T) + hi.b * ratio T⟩ := by
  simp [multipliers, AVG, hlo, hhi]

/-- With brightness 1 the gains of the source are the interpolated multipliers. -/
theorem gains_one_eq_multipliers (T : Int) :
    gains T 1 = (multipliers T).map fun w => ⟨w.r, w.g, w.b⟩ := by
  cases hlo : lookup (bucket T) with
  | none => simp [gains, gamma, multipliers, AVG, hlo]
  | some lo =>
    cases hhi : lookup (bucket T + 1) with
    | none => simp [gains, gamma, multipliers, AVG, hlo, hhi]
    | some hi => simp [gains, gamma, multipliers, AVG, hlo, hhi]

theorem lookups_in_domain (T : Int) (h1 : 500 ≤ T) (h2 : T ≤ 10000) :
    ∃ lo hi, lookup (bucket T) = some lo ∧ lookup (bucket T + 1) = some hi := by
  have hb0 := bucket_nonneg T h1
  have hb1 := bucket_le T h1 h2
  obtain ⟨lo, hlo⟩ := Option.isSome_iff_exists.mp (lookup_isSome (bucket T) hb0 (by omega))
  obtain ⟨hi, hhi⟩ :=
    Option.isSome_iff_exists.mp (lookup_isSome (bucket T + 1) (by omega) (by omega))
  exact ⟨lo, hi, hlo, hhi⟩

theorem gains_bounds (T : Int) (b : ℚ) (h1 : 500 ≤ T) (h2 : T ≤ 10000)
    (hb0 : 0 ≤ b) (hb1 : b ≤ 1) :
    ∃ gs, gains T b = some gs ∧ (0 ≤ gs.gammar ∧ gs.gammar ≤ 1) ∧
      (0 ≤ gs.gammag ∧ gs.gammag ≤ 1) ∧ (0 ≤ gs.gammab ∧ gs.gammab ≤ 1) := by
  obtain ⟨lo, hi, hlo, hhi⟩ := lookups_in_domain T h1 h2
  obtain ⟨lr, lg, lb⟩ := lookup_bounds _ lo hlo
  obtain ⟨ur, ug, ub⟩ := lookup_bounds _ hi hhi
  have hr0 := ratio_nonneg T h1
  have hr1 := le_of_lt (ratio_lt_one T h1)
  exact ⟨_, gains_of_lookup T b lo hi hlo hhi,
    interp_bounds b _ _ _ hb0 hb1 lr.1 lr.2 ur.1 ur.2 hr0 hr1,
    interp_bounds b _ _ _ hb0 hb1 lg.1 lg.2 ug.1 ug.2 hr0 hr1,
    interp_bounds b _ _ _ hb0 hb1 lb.1 lb.2 ub.1 ub.2 hr0 hr1⟩

theorem sct_for_screen_of_gains (sizes : List Nat) (T : Int) (b : ℚ) (gs : Gains)
    (h : gains T b = some gs) :
    sct_for_screen sizes T b = some (sizes.map (fillGamma gs)) := by
  simp [sct_for_screen, h]

theorem entry_fits (N i : Nat) (hi : i < N) (x : ℚ) (h0 : 0 ≤ x) (h1 : x ≤ 1) :
    0 ≤ g N i * x ∧ g N i * x ≤ 65535 ∧ toUShort (g N i * x) = ⌊g N i * x⌋ ∧
      0 ≤ toUShort (g N i * x) ∧ toUShort (g N i * x) ≤ 65535 := by
  obtain ⟨h2, h3⟩ := product_range N i hi x h0 h1
  have e := toUShort_product N i hi x h0 h1
  refine ⟨h2, le_of_lt h3, e, ?_, ?_⟩
  · rw [e]; exact Int.floor_nonneg.mpr h2
  · rw [e]
    have : ⌊g N i * x⌋ < 65535 := by
      rw [Int.floor_lt]; exact_mod_cast h3
    omega

/-! ## Range of the curve values -/

/-- C6: for every temperature T in [500, 10000], brightness in [0.1, 1.0], ramp size
N > 0 and index i < N, the gains exist and each of the three products g * gain lies
in [0, 65535]; the stored entry is its integer part, itself in [0, 65535], so the
16-bit reduction leaves it unchanged. -/
theorem C6_curve_values_fit (T : Int) (b : ℚ) (N i : Nat)
    (h1 : 500 ≤ T) (h2 : T ≤ 10000) (hb0 : 0.1 ≤ b) (hb1 : b ≤ 1.0) (hi : i < N) :
    ∃ gs, gains T b = some gs ∧ sct_for_screen [N] T b = some [fillGamma gs N] ∧
      (0 ≤ g N i * gs.gammar ∧ g N i * gs.gammar ≤ 65535 ∧
        ∃ v, (fillGamma gs N).red[i]? = some v ∧ v = ⌊g N i * gs.gammar⌋ ∧
          0 ≤ v ∧ v ≤ 65535) ∧
      (0 ≤ g N i * gs.gammag ∧ g N i * gs.gammag ≤ 65535 ∧
        ∃ v, (fillGamma gs N).green[i]? = some v ∧ v = ⌊g N i * gs.gammag⌋ ∧
          0 ≤ v ∧ v ≤ 65535) ∧
      (0 ≤ g N i * gs.gammab ∧ g N i * gs.gammab ≤ 65535 ∧
        ∃ v, (fillGamma gs N).blue[i]? = some v ∧ v = ⌊g N i * gs.gammab⌋ ∧
          0 ≤ v ∧ v ≤ 65535) := by
  have hb0' : (0 : ℚ) ≤ b := le_trans (by norm_num) hb0
  have hb1' : b ≤ 1 := le_trans hb1 (by norm_num)
  obtain ⟨gs, hgs, hr, hg, hbl⟩ := gains_bounds T b h1 h2 hb0' hb1'
  obtain ⟨r1, r2, r3, r4, r5⟩ := entry_fits N i hi gs.gammar hr.1 hr.2
  obtain ⟨g1, g2, g3, g4, g5⟩ := entry_fits N i hi gs.gammag hg.1 hg.2
  obtain ⟨b1, b2, b3, b4, b5⟩ := entry_fits N i hi gs.gammab hbl.1 hbl.2
  refine ⟨gs, hgs, ?_, ⟨r1, r2, _, red_getElem? gs N i hi, r3, r4, r5⟩,
    ⟨g1, g2, _, green_getElem? gs N i hi, g3, g4, g5⟩,
    ⟨b1, b2, _, blue_getElem? gs N i hi, b3, b4, b5⟩⟩
  rw [sct_for_screen_of_gains [N] T b gs hgs]; rfl

/-- C6 at temperature 10000, brightness 1, ramp size 4 and the last index 3. -/
theorem C6_curve_values_fit_witness :
    ∃ gs, gains 10000 1 = some gs ∧ sct_for_screen [4] 10000 1 = some [fillGamma gs 4] ∧
      (0 ≤ g 4 3 * gs.gammar ∧ g 4 3 * gs.gammar ≤ 65535 ∧
        ∃ v, (fillGamma gs 4).red[3]? = some v ∧ v = ⌊g 4 3 * gs.gammar⌋ ∧
          0 ≤ v ∧ v ≤ 65535) ∧
      (0 ≤ g 4 3 * gs.gammag ∧ g 4 3 * gs.gammag ≤ 65535 ∧
        ∃ v, (fillGamma gs 4).green[3]? = some v ∧ v = ⌊g 4 3 * gs.gammag⌋ ∧
          0 ≤ v ∧ v ≤ 65535) ∧
      (0 ≤ g 4 3 * gs.gammab ∧ g 4 3 * gs.gammab ≤ 65535 ∧
        ∃ v, (fillGamma gs 4).blue[3]? = some v ∧ v = ⌊g 4 3 * gs.gammab⌋ ∧
          0 ≤ v ∧ v ≤ 65535) :=
  C6_curve_values_fit 10000 1 4 3 (by decide) (by decide) (by norm_num) (by norm_num)
    (by decide)

/-! ## Range of the multipliers -/

/-- C7: for every temperature T in [500, 10000] the three interpolated multipliers
`AVG(r)`, `AVG(g)`, `AVG(b)` exist and each lies in [0, 1]. -/
theorem C7_multipliers_in_unit_interval (T : Int) (h1 : 500 ≤ T) (h2 : T ≤ 10000) :
    ∃ w, multipliers T = some w ∧ (0 ≤ w.r ∧ w.r ≤ 1) ∧ (0 ≤ w.g ∧ w.g ≤ 1) ∧
      (0 ≤ w.b ∧ w.b ≤ 1) := by
  obtain ⟨lo, hi, hlo, hhi⟩ := lookups_in_domain T h1 h2
  obtain ⟨lr, lg, lb⟩ := lookup_bounds _ lo hlo
  obtain ⟨ur, ug, ub⟩ := lookup_bounds _ hi hhi
  have hr0 := ratio_nonneg T h1
  have hr1 := le_of_lt (ratio_lt_one T h1)
  have er := interp_bounds 1 _ _ _ zero_le_one (le_refl 1) lr.1 lr.2 ur.1 ur.2 hr0 hr1
  have eg := interp_bounds 1 _ _ _ zero_le_one (le_refl 1) lg.1 lg.2 ug.1 ug.2 hr0 hr1
  have eb := interp_bounds 1 _ _ _ zero_le_one (le_refl 1) lb.1 lb.2 ub.1 ub.2 hr0 hr1
  rw [one_mul] at er eg eb
  exact ⟨_, multipliers_of_lookup T lo hi hlo hhi, er, eg, eb⟩

/-- C7 at temperature 7250, halfway between two table entries. -/
theorem C7_multipliers_in_unit_interval_witness :
    ∃ w, multipliers 7250 = some w ∧ (0 ≤ w.r ∧ w.r ≤ 1) ∧ (0 ≤ w.g ∧ w.g ≤ 1) ∧
      (0 ≤ w.b ∧ w.b ≤ 1) :=
  C7_multipliers_in_unit_interval 7250 (by decide) (by decide)

/-! ## Monotonicity in the brightness -/

theorem entry_mono (N i : Nat) (hi : i < N) (x y : ℚ) (hx0 : 0 ≤ x) (hxy : x ≤ y)
    (hy1 : y ≤ 1) : toUShort (g N i * x) ≤ toUShort (g N i * y) := by
  rw [toUShort_product N i hi x hx0 (le_trans hxy hy1),
    toUShort_product N i hi y (le_trans hx0 hxy) hy1]
  apply Int.floor_le_floor
  have := g_nonneg N i
  gcongr

theorem interp_mono (b1 b2 x y r : ℚ) (hb : b1 ≤ b2) (hx0 : 0 ≤ x) (hr1 : r ≤ 1) :
    b1 * x * (1 - r) + y * r ≤ b2 * x * (1 - r) + y * r := by
  have h1r : 0 ≤ 1 - r := by linarith
  have : b1 * x * (1 - r) ≤ b2 * x * (1 - r) := by gcongr
  linarith

/-- C8: for a fixed temperature T in [500, 10000], ramp size N > 0 and index i < N,
and brightness values 0.1 ≤ b1 ≤ b2 ≤ 1.0, each channel's curve value computed with b1
is at most the one computed with b2. -/
theorem C8_brightness_monotone (T : Int) (b1 b2 : ℚ) (N i : Nat)
    (h1 : 500 ≤ T) (h2 : T ≤ 10000) (hb0 : 0.1 ≤ b1) (hb12 : b1 ≤ b2) (hb1 : b2 ≤ 1.0)
    (hi : i < N) :
    ∃ c1 c2, sct_for_screen [N] T b1 = some [c1] ∧ sct_for_screen [N] T b2 = some [c2] ∧
      (∃ v1 v2, c1.red[i]? = some v1 ∧ c2.red[i]? = some v2 ∧ v1 ≤ v2) ∧
      (∃ v1 v2, c1.green[i]? = some v1 ∧ c2.green[i]? = some v2 ∧ v1 ≤ v2) ∧
      (∃ v1 v2, c1.blue[i]? = some v1 ∧ c2.blue[i]? = some v2 ∧ v1 ≤ v2) := by
  have hb0' : (0 : ℚ) ≤ b1 := le_trans (by norm_num) hb0
  have hb1' : b2 ≤ 1 := le_trans hb1 (by norm_num)
  obtain ⟨lo, hi', hlo, hhi⟩ := lookups_in_domain T h1 h2
  obtain ⟨lr, lg, lb⟩ := lookup_bounds _ lo hlo
  obtain ⟨ur, ug, ub⟩ := lookup_bounds _ hi' hhi
  have hr0 := ratio_nonneg T h1
  have hr1 := le_of_lt (ratio_lt_one T h1)
  have e1 := gains_of_lookup T b1 lo hi' hlo hhi
  have e2 := gains_of_lookup T b2 lo hi' hlo hhi
  refine ⟨_, _, (sct_for_screen_of_gains [N] T b1 _ e1).trans rfl,
    (sct_for_screen_of_gains [N] T b2 _ e2).trans rfl,
    ⟨_, _, red_getElem? _ N i hi, red_getElem? _ N i hi, ?_⟩,
    ⟨_, _, green_getElem? _ N i hi, green_getElem? _ N i hi, ?_⟩,
    ⟨_, _, blue_getElem? _ N i hi, blue_getElem? _ N i hi, ?_⟩⟩
  · exact entry_mono N i hi _ _
      (interp_bounds b1 _ _ _ hb0' (le_trans hb12 hb1') lr.1 lr.2 ur.1 ur.2 hr0 hr1).1
      (interp_mono b1 b2 _ _ _ hb12 lr.1 hr1)
      (interp_bounds b2 _ _ _ (le_trans hb0' hb12) hb1' lr.1 lr.2 ur.1 ur.2 hr0 hr1).2
  · exact entry_mono N i hi _ _
      (interp_bounds b1 _ _ _ hb0' (le_trans hb12 hb1') lg.1 lg.2 ug.1 ug.2 hr0 hr1).1
      (interp_mono b1 b2 _ _ _ hb12 lg.1 hr1)
      (interp_bounds b2 _ _ _ (le_trans hb0' hb12) hb1' lg.1 lg.2 ug.1 ug.2 hr0 hr1).2
  · exact entry_mono N i hi _ _
      (interp_bounds b1 _ _ _ hb0' (le_trans hb12 hb1') lb.1 lb.2 ub.1 ub.2 hr0 hr1).1
      (interp_mono b1 b2 _ _ _ hb12 lb.1 hr1)
      (interp_bounds b2 _ _ _ (le_trans hb0' hb12) hb1' lb.1 lb.2 ub.1 ub.2 hr0 hr1).2

/-- C8 at temperature 3000, ramp size 256, index 255, brightness 1/2 against 1. -/
theorem C8_brightness_monotone_witness :
    ∃ c1 c2, sct_for_screen [256] 3000 (1 / 2) = some [c1] ∧
      sct_for_screen [256] 3000 1 = some [c2] ∧
      (∃ v1 v2, c1.red[255]? = some v1 ∧ c2.red[255]? = some v2 ∧ v1 ≤ v2) ∧
      (∃ v1 v2, c1.green[255]? = some v1 ∧ c2.green[255]? = some v2 ∧ v1 ≤ v2) ∧
      (∃ v1 v2, c1.blue[255]? = some v1 ∧ c2.blue[255]? = some v2 ∧ v1 ≤ v2) :=
  C8_brightness_monotone 3000 (1 / 2) 1 256 255 (by decide) (by decide) (by norm_num)
    (by norm_num) (by norm_num) (by decide)

/-! ## The 1000K setting -/

theorem gains_1000 : gains 1000 1 = some ⟨1.0, 0.18172716, 0.0⟩ := by
  have hb : bucket 1000 = 1 := by decide
  have hr : ratio 1000 = 0 := by
    have := ratio_boundary 1 (by decide)
    simpa using this
  simp [gains, gamma, hb, hr, lookup, whitepoints]
  norm_num

theorem toUShort_zero : toUShort 0 = 0 := by
  simp [toUShort]

/-- C9: at temperature 1000 and brightness 1 the channel gains are exactly
(1.0, 0.18172716, 0.0), and for a CRTC of any gamma size N the blue curve is 0 at
every index. -/
theorem C9_gains_at_1000 (N : Nat) :
    gains 1000 1 = some ⟨1.0, 0.18172716, 0.0⟩ ∧
    ∃ c, sct_for_screen [N] 1000 1 = some [c] ∧ c.blue = List.replicate N 0 ∧
      ∀ i, i < N → c.blue[i]? = some 0 := by
  have hblue : (fillGamma ⟨1.0, 0.18172716, 0.0⟩ N).blue = List.replicate N 0 := by
    have key : ∀ i ∈ List.range N, toUShort (g N i * (0.0 : ℚ)) = 0 := by
      intro i _
      have : g N i * (0.0 : ℚ) = 0 := by norm_num
      rw [this, toUShort_zero]
    simp only [fillGamma, List.map_congr_left key]
    simp
  refine ⟨gains_1000, _, (sct_for_screen_of_gains [N] 1000 1 _ gains_1000).trans rfl,
    hblue, ?_⟩
  intro i hi
  rw [hblue]
  simp [hi]

/-! ## The reset flag -/

/-- C10 as stated fails: the argument `-r3000` carries the flag and a number, and
the temperature used is 6500, not 500. -/
theorem C10_counterexample :
    mainTemp ["sct", "-r3000"] = 6500 ∧ mainTemp ["sct", "-r3000"] ≠ 500 := by
  decide

/-- C10, amended: when the first argument is exactly the string `-r` the temperature
used is 500; when further characters follow `-r` (as in `-r3000`) the argument is
not the flag, `atoi` reads it as 0 and the temperature used is 6500. -/
theorem C10_reset_flag (prog : String) (rest : List String) :
    mainTemp (prog :: "-r" :: rest) = 500 ∧
    ∀ t : String, t ≠ "" →
      atoi ("-r" ++ t) = 0 ∧ mainTemp (prog :: ("-r" ++ t) :: rest) = 6500 := by
  refine ⟨mainTemp_flag prog rest, ?_⟩
  intro t ht
  refine ⟨atoi_dash_r_append t, ?_⟩
  rw [mainTemp_number prog _ rest (dash_r_append_ne t ht), atoi_dash_r_append]
  decide

/-! ## The brightness argument -/

theorem mainBrightness_of_arg (prog arg1 arg2 : String) (rest : List String) :
    mainBrightness (prog :: arg1 :: arg2 :: rest) =
      if (atof arg2).lt 0.1 || (atof arg2).gt 1.0 then .finite 1.0 else atof arg2 := by
  simp [mainBrightness]

theorem mainBrightness_omitted (argv : List String) (h : argv.length ≤ 2) :
    mainBrightness argv = .finite 1.0 := by
  match argv, h with
  | [], _ => simp [mainBrightness, Double.lt, Double.gt]
  | [_], _ => simp [mainBrightness, Double.lt, Double.gt]
  | [_, _], _ => simp [mainBrightness, Double.lt, Double.gt]

/-- The brightness passed on, by the value `atof` returns for `argv[2]`. -/
theorem mainBrightness_cases (prog arg1 arg2 : String) (rest : List String) :
    (∀ q, atof arg2 = .finite q → 0.1 ≤ q → q ≤ 1.0 →
      mainBrightness (prog :: arg1 :: arg2 :: rest) = .finite q) ∧
    (∀ q, atof arg2 = .finite q → (q < 0.1 ∨ 1.0 < q) →
      mainBrightness (prog :: arg1 :: arg2 :: rest) = .finite 1.0) ∧
    (atof arg2 = .posInf → mainBrightness (prog :: arg1 :: arg2 :: rest) = .finite 1.0) ∧
    (atof arg2 = .negInf → mainBrightness (prog :: arg1 :: arg2 :: rest) = .finite 1.0) ∧
    (atof arg2 = .nan → mainBrightness (prog :: arg1 :: arg2 :: rest) = .nan) := by
  rw [mainBrightness_of_arg]
  refine ⟨?_, ?_, ?_, ?_, ?_⟩
  · intro q hq h0 h1
    rw [hq]
    simp [Double.lt, Double.gt, not_lt.mpr h0, not_lt.mpr h1]
  · intro q hq h
    rw [hq]
    rcases h with h | h
    · simp [Double.lt, Double.gt, h]
    · simp [Double.lt, Double.gt, h]
  · intro h; rw [h]; simp [Double.lt, Double.gt]
  · intro h; rw [h]; simp [Double.lt, Double.gt]
  · intro h; rw [h]; simp [Double.lt, Double.gt]

/-- The brightness passed on is a NaN or a finite value in [0.1, 1.0]. -/
theorem mainBrightness_range (argv : List String) :
    mainBrightness argv = .nan ∨
      ∃ q, mainBrightness argv = .finite q ∧ 0.1 ≤ q ∧ q ≤ 1.0 := by
  match argv with
  | [] => exact Or.inr ⟨1.0, mainBrightness_omitted _ (by decide), by norm_num, by norm_num⟩
  | [_] => exact Or.inr ⟨1.0, mainBrightness_omitted _ (by simp), by norm_num, by norm_num⟩
  | [_, _] =>
    exact Or.inr ⟨1.0, mainBrightness_omitted _ (by simp), by norm_num, by norm_num⟩
  | prog :: arg1 :: arg2 :: rest =>
    obtain ⟨c1, c2, c3, c4, c5⟩ := mainBrightness_cases prog arg1 arg2 rest
    cases hx : atof arg2 with
    | finite q =>
      right
      by_cases hq : 0.1 ≤ q ∧ q ≤ 1.0
      · exact ⟨q, c1 q hx hq.1 hq.2, hq.1, hq.2⟩
      · refine ⟨1.0, c2 q hx ?_, by norm_num, by norm_num⟩
        by_contra hn
        push_neg at hn
        exact hq ⟨hn.1, hn.2⟩
    | posInf => right; exact ⟨1.0, c3 hx, by norm_num, by norm_num⟩
    | negInf => right; exact ⟨1.0, c4 hx, by norm_num, by norm_num⟩
    | nan => left; exact c5 hx

/-- C11 at a failing input: for the command line `sct 6500 nan`, `atof` returns a
NaN, both comparisons of line 112 are false, and the brightness passed to
`sct_for_screen` is that NaN: it is not a value in [0.1, 1.0] and it is not the
default 1.0. -/
theorem C11_nan_brightness_passed_on :
    atof "nan" = Double.nan ∧
    mainBrightness ["sct", "6500", "nan"] = Double.nan ∧
    (∀ q, mainBrightness ["sct", "6500", "nan"] ≠ Double.finite q) ∧
    (main (some ⟨[[4]]⟩) ["sct", "6500", "nan"]).submitted = [none] := by
  refine ⟨by decide, by decide, ?_, ?_⟩
  · intro q h
    have e : mainBrightness ["sct", "6500", "nan"] = Double.nan := by decide
    rw [e] at h
    exact Double.noConfusion h
  · have e : mainBrightness ["sct", "6500", "nan"] = Double.nan := by decide
    simp [main, e]

/-! ## The first entry of a curve -/

theorem g_zero (N : Nat) : g N 0 = 0 := by
  simp [g]

theorem entry_zero (N : Nat) (x : ℚ) : toUShort (g N 0 * x) = 0 := by
  rw [g_zero, zero_mul, toUShort_zero]

/-- C12: for every ramp size N > 0 the curve entry at index 0 is 0 on all three
channels, whatever the gains; so it is for every curve `sct_for_screen` builds,
for every temperature and brightness, and for a temperature in [500, 10000] that
curve exists. -/
theorem C12_index_zero (N : Nat) (hN : 0 < N) :
    (∀ gs : Gains, (fillGamma gs N).red[0]? = some 0 ∧
      (fillGamma gs N).green[0]? = some 0 ∧ (fillGamma gs N).blue[0]? = some 0) ∧
    (∀ (T : Int) (b : ℚ) (c : CrtcGamma), sct_for_screen [N] T b = some [c] →
      c.red[0]? = some 0 ∧ c.green[0]? = some 0 ∧ c.blue[0]? = some 0) ∧
    (∀ (T : Int) (b : ℚ), 500 ≤ T → T ≤ 10000 →
      ∃ c, sct_for_screen [N] T b = some [c] ∧
        c.red[0]? = some 0 ∧ c.green[0]? = some 0 ∧ c.blue[0]? = some 0) := by
  have key : ∀ gs : Gains, (fillGamma gs N).red[0]? = some 0 ∧
      (fillGamma gs N).green[0]? = some 0 ∧ (fillGamma gs N).blue[0]? = some 0 := by
    intro gs
    rw [red_getElem? gs N 0 hN, green_getElem? gs N 0 hN, blue_getElem? gs N 0 hN,
      entry_zero, entry_zero, entry_zero]
    exact ⟨rfl, rfl, rfl⟩
  refine ⟨key, ?_, ?_⟩
  · intro T b c h
    cases hg : gains T b with
    | none => simp [sct_for_screen, hg] at h
    | some gs =>
      rw [sct_for_screen_of_gains [N] T b gs hg] at h
      simp at h
      subst h
      exact key gs
  · intro T b h1 h2
    obtain ⟨lo, hi, hlo, hhi⟩ := lookups_in_domain T h1 h2
    have hg := gains_of_lookup T b lo hi hlo hhi
    exact ⟨_, (sct_for_screen_of_gains [N] T b _ hg).trans rfl, key _⟩

/-- C12 at gains (1, 1, 1) and ramp size 4. -/
theorem C12_index_zero_witness :
    (fillGamma ⟨1, 1, 1⟩ 4).red[0]? = some 0 ∧
      (fillGamma ⟨1, 1, 1⟩ 4).green[0]? = some 0 ∧ (fillGamma ⟨1, 1, 1⟩ 4).blue[0]? = some 0 :=
  (C12_index_zero 4 (by decide)).1 ⟨1, 1, 1⟩

/-! ## The exit status -/

/-- C13: `main` returns `EXIT_FAILURE`, a nonzero status, exactly when
`XOpenDisplay` gave no connection; with a connection it returns `EXIT_SUCCESS` = 0
for every `argv` and every set of screens and CRTCs. -/
theorem C13_exit_status (dpy : Option Display) (argv : List String) :
    ((main dpy argv).status = EXIT_FAILURE ↔ dpy = none) ∧
    ((main dpy argv).status ≠ 0 ↔ dpy = none) ∧
    (∀ d, dpy = some d →
      (main dpy argv).status = EXIT_SUCCESS ∧ (main dpy argv).status = 0) := by
  cases dpy with
  | none => simp [main, EXIT_FAILURE]
  | some d => simp [main, EXIT_SUCCESS, EXIT_FAILURE]

/-! ## Independence of the curves -/

theorem sct_for_screen_getElem? (sizes : List Nat) (T : Int) (b : ℚ) (j N : Nat)
    (h : sizes[j]? = some N) :
    (sct_for_screen sizes T b).bind (fun cs => cs[j]?) =
      (gains T b).map fun gs => fillGamma gs N := by
  cases hg : gains T b with
  | none => simp [sct_for_screen, hg]
  | some gs =>
    rw [sct_for_screen_of_gains sizes T b gs hg]
    simp [h]

/-- C14: the curve built for a CRTC is a function of the temperature, the
brightness and that CRTC's ramp size only. Two calls with the same temperature and
brightness give the same curve to any two CRTCs of ramp size N, whatever their
positions and whatever the other CRTCs of either screen; the curve is `fillGamma`
of the gains at N, and for a temperature in [500, 10000] it exists. -/
theorem C14_curve_depends_on_three_values (T : Int) (b : ℚ) (N : Nat)
    (sizes1 sizes2 : List Nat) (j1 j2 : Nat)
    (h1 : sizes1[j1]? = some N) (h2 : sizes2[j2]? = some N) :
    (sct_for_screen sizes1 T b).bind (fun cs => cs[j1]?) =
      (sct_for_screen sizes2 T b).bind (fun cs => cs[j2]?) ∧
    ((sct_for_screen sizes1 T b).bind (fun cs => cs[j1]?) =
      (gains T b).map fun gs => fillGamma gs N) ∧
    (500 ≤ T → T ≤ 10000 →
      ∃ c, (sct_for_screen sizes1 T b).bind (fun cs => cs[j1]?) = some c) := by
  rw [sct_for_screen_getElem? sizes1 T b j1 N h1, sct_for_screen_getElem? sizes2 T b j2 N h2]
  refine ⟨rfl, rfl, ?_⟩
  intro hT1 hT2
  obtain ⟨lo, hi, hlo, hhi⟩ := lookups_in_domain T hT1 hT2
  rw [gains_of_lookup T b lo hi hlo hhi]
  exact ⟨_, rfl⟩

/-- C14 for the first CRTC of a screen with ramp sizes 4, 256 and the third CRTC of
a screen with ramp sizes 1024, 16, 4, at temperature 3000 and brightness 1/2. -/
theorem C14_curve_depends_on_three_values_witness :
    (sct_for_screen [4, 256] 3000 (1 / 2)).bind (fun cs => cs[0]?) =
      (sct_for_screen [1024, 16, 4] 3000 (1 / 2)).bind (fun cs => cs[2]?) ∧
    ∃ c, (sct_for_screen [4, 256] 3000 (1 / 2)).bind (fun cs => cs[0]?) = some c :=
  ⟨(C14_curve_depends_on_three_values 3000 (1 / 2) 4 [4, 256] [1024, 16, 4] 0 2 rfl rfl).1,
   (C14_curve_depends_on_three_values 3000 (1 / 2) 4 [4, 256] [1024, 16, 4] 0 2 rfl rfl).2.2
     (by decide) (by decide)⟩

/-! ## Bucket boundaries -/

theorem lookup_eq_getElem? (k : Int) (h : 0 ≤ k) : lookup k = whitepoints[k.toNat]? := by
  unfold lookup
  rw [if_pos h]

theorem gains_500 (b : ℚ) : gains 500 b = some ⟨b, 0, 0⟩ := by
  have hb : bucket 500 = 0 := by decide
  have hr : ratio 500 = 0 := by
    have := ratio_boundary 0 (by decide)
    simpa using this
  simp [gains, gamma, hb, hr, lookup, whitepoints]
  norm_num

theorem map_entry_zero (N : Nat) :
    ((List.range N).map fun i => toUShort (g N i * (0 : ℚ))) = List.replicate N 0 := by
  have key : ∀ i ∈ List.range N, toUShort (g N i * (0 : ℚ)) = 0 := by
    intro i _
    rw [mul_zero, toUShort_zero]
  rw [List.map_congr_left key]
  simp

/-- C15: for every k in 0..19 the temperature 500 + 500 k falls on index k with
ratio 0 and the multipliers are exactly `whitepoints[k]`. At 500 they are the
sentinel (1, 0, 0), so for every brightness and ramp size the green and blue curves
are all zeros; at 1000 they are `whitepoints[1]`. -/
theorem C15_bucket_boundaries :
    (∀ k : Int, 0 ≤ k → k ≤ 19 →
      bucket (500 + 500 * k) = k ∧ ratio (500 + 500 * k) = 0 ∧
      multipliers (500 + 500 * k) = lookup k ∧ lookup k = whitepoints[k.toNat]?) ∧
    multipliers 500 = some ⟨1.0, 0.0, 0.0⟩ ∧
    (∀ (b : ℚ) (N : Nat), ∃ c, sct_for_screen [N] 500 b = some [c] ∧
      c.green = List.replicate N 0 ∧ c.blue = List.replicate N 0) ∧
    multipliers 1000 = lookup 1 ∧
    multipliers 1000 = some ⟨1.00000000, 0.18172716, 0.00000000⟩ := by
  have h0 := multipliers_boundary 0 (by decide) (by decide)
  have h1 := multipliers_boundary 1 (by decide) (by decide)
  have e0 : (500 + 500 * 0 : Int) = 500 := by decide
  have e1 : (500 + 500 * 1 : Int) = 1000 := by decide
  rw [e0] at h0
  rw [e1] at h1
  refine ⟨?_, ?_, ?_, h1, ?_⟩
  · intro k hk0 hk1
    exact ⟨bucket_boundary k hk0, ratio_boundary k hk0, multipliers_boundary k hk0 hk1,
      lookup_eq_getElem? k hk0⟩
  · rw [h0]; simp [lookup, whitepoints]
  · intro b N
    refine ⟨_, (sct_for_screen_of_gains [N] 500 b _ (gains_500 b)).trans rfl, ?_, ?_⟩
    · exact map_entry_zero N
    · exact map_entry_zero N
  · rw [h1]; simp [lookup, whitepoints]

/-! ## Monotonicity in the temperature -/

theorem table_step (k : Int) (h0 : 0 ≤ k) (h1 : k ≤ 19) (lo hi : Whitepoint)
    (hlo : lookup k = some lo) (hhi : lookup (k + 1) = some hi) :
    hi.r ≤ lo.r ∧ lo.b ≤ hi.b := by
  obtain ⟨n, rfl⟩ := Int.eq_ofNat_of_zero_le h0
  have hn : n < 20 := by omega
  interval_cases n <;> simp [lookup, whitepoints] at hlo hhi <;> subst hlo <;> subst hhi <;>
    norm_num

theorem multipliers_step (T : Int) (h1 : 500 ≤ T) (h2 : T < 10000) :
    ∃ w1 w2, multipliers T = some w1 ∧ multipliers (T + 1) = some w2 ∧
      w2.r ≤ w1.r ∧ w1.b ≤ w2.b := by
  obtain ⟨lo, hi, hlo, hhi⟩ := lookups_in_domain T h1 (by omega)
  obtain ⟨lo', hi', hlo', hhi'⟩ := lookups_in_domain (T + 1) (by omega) (by omega)
  have hk0 := bucket_nonneg T h1
  have hk1 := bucket_le T h1 (by omega)
  obtain ⟨sr, sb⟩ := table_step (bucket T) hk0 hk1 lo hi hlo hhi
  have hr0 := ratio_nonneg T h1
  have hr1 := le_of_lt (ratio_lt_one T h1)
  refine ⟨_, _, multipliers_of_lookup T lo hi hlo hhi,
    multipliers_of_lookup (T + 1) lo' hi' hlo' hhi', ?_, ?_⟩ <;> simp only
  all_goals
    by_cases hm : (T - 500) % 500 < 499
    · -- same bucket
      have hb : bucket (T + 1) = bucket T := by
        rw [bucket_eq_ediv _ h1, bucket_eq_ediv _ (by omega)]; omega
      have hrr : ratio (T + 1) = ratio T + 1 / 500 := by
        rw [ratio_eq _ h1, ratio_eq _ (by omega)]
        have : (T + 1 - 500) % 500 = (T - 500) % 500 + 1 := by omega
        rw [this]; push_cast; ring
      rw [hb] at hlo' hhi'
      rw [hlo] at hlo'; rw [hhi] at hhi'
      cases hlo'; cases hhi'
      rw [hrr]
      nlinarith
    · -- next bucket, at its boundary
      have hb : bucket (T + 1) = bucket T + 1 := by
        rw [bucket_eq_ediv _ h1, bucket_eq_ediv _ (by omega)]; omega
      have hrr : ratio (T + 1) = 0 := by
        rw [ratio_eq _ (by omega)]
        have : (T + 1 - 500) % 500 = 0 := by omega
        rw [this]; simp
      rw [hb] at hlo'
      rw [hhi] at hlo'
      cases hlo'
      rw [hrr]
      nlinarith

theorem multipliers_mono_nat (n : Nat) : ∀ T1 : Int, 500 ≤ T1 → T1 + n ≤ 10000 →
    ∃ w1 w2, multipliers T1 = some w1 ∧ multipliers (T1 + n) = some w2 ∧
      w2.r ≤ w1.r ∧ w1.b ≤ w2.b := by
  induction n with
  | zero =>
    intro T1 h1 h2
    obtain ⟨lo, hi, hlo, hhi⟩ := lookups_in_domain T1 h1 (by simpa using h2)
    have e := multipliers_of_lookup T1 lo hi hlo hhi
    exact ⟨_, _, e, by simpa using e, le_refl _, le_refl _⟩
  | succ n ih =>
    intro T1 h1 h2
    push_cast at h2
    obtain ⟨w1, w2, e1, e2, hr, hb⟩ := ih T1 h1 (by omega)
    obtain ⟨v1, v2, f1, f2, hr', hb'⟩ := multipliers_step (T1 + n) (by omega) (by omega)
    rw [e2] at f1
    cases f1
    refine ⟨w1, v2, e1, ?_, le_trans hr' hr, le_trans hb hb'⟩
    have : T1 + ((n + 1 : Nat) : Int) = T1 + n + 1 := by push_cast; ring
    rw [this]
    exact f2

/-- C16: for all integers 500 ≤ T1 ≤ T2 ≤ 10000 the interpolated multipliers exist,
the red multiplier at T1 is at least the one at T2, and the blue multiplier at T1
is at most the one at T2. -/
theorem C16_temperature_monotone (T1 T2 : Int) (h1 : 500 ≤ T1) (h12 : T1 ≤ T2)
    (h2 : T2 ≤ 10000) :
    ∃ w1 w2, multipliers T1 = some w1 ∧ multipliers T2 = some w2 ∧
      w2.r ≤ w1.r ∧ w1.b ≤ w2.b := by
  have e : T1 + (((T2 - T1).toNat : Nat) : Int) = T2 := by
    rw [Int.toNat_of_nonneg (by omega)]; ring
  have := multipliers_mono_nat (T2 - T1).toNat T1 h1 (by rw [e]; exact h2)
  rwa [e] at this

/-- C16 at the temperatures 2750 and 9100. -/
theorem C16_temperature_monotone_witness :
    ∃ w1 w2, multipliers 2750 = some w1 ∧ multipliers 9100 = some w2 ∧
      w2.r ≤ w1.r ∧ w1.b ≤ w2.b :=
  C16_temperature_monotone 2750 9100 (by decide) (by decide) (by decide)

/-! ## Monotonicity in the index -/

theorem g_mono (N i j : Nat) (h : i ≤ j) : g N i ≤ g N j := by
  rw [g_eq, g_eq]
  have : ((65535 * i : Nat) : ℚ) ≤ ((65535 * j : Nat) : ℚ) := by
    exact_mod_cast Nat.mul_le_mul_left 65535 h
  gcongr

theorem entry_mono_index (N i j : Nat) (hij : i ≤ j) (hj : j < N) (x : ℚ)
    (h0 : 0 ≤ x) (h1 : x ≤ 1) : toUShort (g N i * x) ≤ toUShort (g N j * x) := by
  rw [toUShort_product N i (lt_of_le_of_lt hij hj) x h0 h1, toUShort_product N j hj x h0 h1]
  apply Int.floor_le_floor
  have := g_mono N i j hij
  gcongr

/-- C17: for every temperature T in [500, 10000], brightness in [0.1, 1.0] and ramp
size N, each channel's curve is non-decreasing in the index: for i ≤ j < N the
entry at i is at most the entry at j, on red, green and blue. -/
theorem C17_curve_monotone_in_index (T : Int) (b : ℚ) (N i j : Nat)
    (h1 : 500 ≤ T) (h2 : T ≤ 10000) (hb0 : 0.1 ≤ b) (hb1 : b ≤ 1.0)
    (hij : i ≤ j) (hj : j < N) :
    ∃ c, sct_for_screen [N] T b = some [c] ∧
      (∃ v1 v2, c.red[i]? = some v1 ∧ c.red[j]? = some v2 ∧ v1 ≤ v2) ∧
      (∃ v1 v2, c.green[i]? = some v1 ∧ c.green[j]? = some v2 ∧ v1 ≤ v2) ∧
      (∃ v1 v2, c.blue[i]? = some v1 ∧ c.blue[j]? = some v2 ∧ v1 ≤ v2) := by
  have hb0' : (0 : ℚ) ≤ b := le_trans (by norm_num) hb0
  have hb1' : b ≤ 1 := le_trans hb1 (by norm_num)
  have hi : i < N := lt_of_le_of_lt hij hj
  obtain ⟨gs, hgs, hr, hg, hbl⟩ := gains_bounds T b h1 h2 hb0' hb1'
  exact ⟨_, (sct_for_screen_of_gains [N] T b gs hgs).trans rfl,
    ⟨_, _, red_getElem? gs N i hi, red_getElem? gs N j hj,
      entry_mono_index N i j hij hj _ hr.1 hr.2⟩,
    ⟨_, _, green_getElem? gs N i hi, green_getElem? gs N j hj,
      entry_mono_index N i j hij hj _ hg.1 hg.2⟩,
    ⟨_, _, blue_getElem? gs N i hi, blue_getElem? gs N j hj,
      entry_mono_index N i j hij hj _ hbl.1 hbl.2⟩⟩

/-- C17 at temperature 3000, brightness 1/2, ramp size 256, indices 17 and 255. -/
theorem C17_curve_monotone_in_index_witness :
    ∃ c, sct_for_screen [256] 3000 (1 / 2) = some [c] ∧
      (∃ v1 v2, c.red[17]? = some v1 ∧ c.red[255]? = some v2 ∧ v1 ≤ v2) ∧
      (∃ v1 v2, c.green[17]? = some v1 ∧ c.green[255]? = some v2 ∧ v1 ≤ v2) ∧
      (∃ v1 v2, c.blue[17]? = some v1 ∧ c.blue[255]? = some v2 ∧ v1 ≤ v2) :=
  C17_curve_monotone_in_index 3000 (1 / 2) 256 17 255 (by decide) (by decide) (by norm_num)
    (by norm_num) (by decide) (by decide)

/-! ## Channels whose multiplier is 1 -/

theorem lookup_r_one (k : Int) (h0 : 0 ≤ k) (h1 : k ≤ 12) (w : Whitepoint)
    (h : lookup k = some w) : w.r = 1 := by
  obtain ⟨n, rfl⟩ := Int.eq_ofNat_of_zero_le h0
  have hn : n < 13 := by omega
  interval_cases n <;> simp [lookup, whitepoints] at h <;> subst h <;> norm_num

theorem lookup_b_one (k : Int) (h0 : 12 ≤ k) (h1 : k ≤ 20) (w : Whitepoint)
    (h : lookup k = some w) : w.b = 1 := by
  obtain ⟨n, rfl⟩ := Int.eq_ofNat_of_zero_le (by omega : 0 ≤ k)
  have hn0 : 12 ≤ n := by omega
  have hn : n < 21 := by omega
  interval_cases n <;> simp [lookup, whitepoints] at h <;> subst h <;> norm_num

/-- The red multiplier is 1 for every temperature in [500, 6500]. -/
theorem red_multiplier_one (T : Int) (h1 : 500 ≤ T) (h2 : T ≤ 6500) :
    AVG Whitepoint.r T = some 1 := by
  obtain ⟨lo, hi, hlo, hhi⟩ := lookups_in_domain T h1 (by omega)
  rw [AVG_of_lookup _ T lo hi hlo hhi]
  have hk : bucket T ≤ 12 := by rw [bucket_eq_ediv T h1]; omega
  have elo := lookup_r_one _ (bucket_nonneg T h1) hk lo hlo
  by_cases hT : T = 6500
  · subst hT
    have hr : ratio 6500 = 0 := by
      have := ratio_boundary 12 (by decide)
      simpa using this
    rw [hr, elo]; norm_num
  · have hk' : bucket T + 1 ≤ 12 := by rw [bucket_eq_ediv T h1]; omega
    have ehi := lookup_r_one _ (by have := bucket_nonneg T h1; omega) hk' hi hhi
    rw [elo, ehi]; ring_nf

/-- The blue multiplier is 1 for every temperature in [6500, 10000]. -/
theorem blue_multiplier_one (T : Int) (h1 : 6500 ≤ T) (h2 : T ≤ 10000) :
    AVG Whitepoint.b T = some 1 := by
  obtain ⟨lo, hi, hlo, hhi⟩ := lookups_in_domain T (by omega) h2
  rw [AVG_of_lookup _ T lo hi hlo hhi]
  have hk0 : 12 ≤ bucket T := by rw [bucket_eq_ediv T (by omega)]; omega
  have hk1 := bucket_le T (by omega) h2
  rw [lookup_b_one _ hk0 (by omega) lo hlo, lookup_b_one _ (by omega) (by omega) hi hhi]
  ring_nf

/-- The red gain the source computes for a temperature in [500, 6500): the
brightness scales only the weight of the lower table entry. -/
theorem red_gain_below_6500 (T : Int) (b : ℚ) (h1 : 500 ≤ T) (h2 : T < 6500) :
    gamma Whitepoint.r T b = some (b * (1 - ratio T) + ratio T) := by
  obtain ⟨lo, hi, hlo, hhi⟩ := lookups_in_domain T h1 (by omega)
  rw [gamma_of_lookup _ T b lo hi hlo hhi]
  have hk : bucket T + 1 ≤ 12 := by rw [bucket_eq_ediv T h1]; omega
  have h0 := bucket_nonneg T h1
  rw [lookup_r_one _ h0 (by omega) lo hlo, lookup_r_one _ (by omega) hk hi hhi]
  ring_nf

theorem toUShort_eq (x : ℚ) (n : Int) (h0 : 0 ≤ n) (h1 : n < 65536)
    (hx : (n : ℚ) ≤ x ∧ x < n + 1) : toUShort x = n := by
  have hx0 : 0 ≤ x := le_trans (by exact_mod_cast h0) hx.1
  have hf : ⌊x⌋ = n := Int.floor_eq_iff.mpr hx
  unfold toUShort
  rw [if_pos hx0, hf]
  exact Int.emod_eq_of_lt h0 h1

theorem gains_750_half : gains 750 (1 / 2) = some ⟨3 / 4, 0.09086358, 0⟩ := by
  have hb : bucket 750 = 0 := by decide
  have hr : ratio 750 = 1 / 2 := by
    rw [ratio_eq _ (by decide)]
    norm_num
  simp [gains, gamma, hb, hr, lookup, whitepoints]
  norm_num

/-- C18 at a failing input: at temperatures 750 and 500, both in [500, 6500], the red
multiplier is exactly 1, yet with brightness 1/2 the red gain at 750 is 3/4, not the
brightness, and the red curve depends on the temperature: for ramp size 4 the entry
at index 1 is 12287 at 750 and 8191 at 500. -/
theorem C18_gain_is_not_brightness :
    AVG Whitepoint.r 750 = some 1 ∧ AVG Whitepoint.r 500 = some 1 ∧
    gains 750 (1 / 2) = some ⟨3 / 4, 0.09086358, 0⟩ ∧
    gains 500 (1 / 2) = some ⟨1 / 2, 0, 0⟩ ∧
    (3 / 4 : ℚ) ≠ 1 / 2 ∧
    sct_for_screen [4] 750 (1 / 2) = some [fillGamma ⟨3 / 4, 0.09086358, 0⟩ 4] ∧
    sct_for_screen [4] 500 (1 / 2) = some [fillGamma ⟨1 / 2, 0, 0⟩ 4] ∧
    (fillGamma ⟨3 / 4, 0.09086358, 0⟩ 4).red[1]? = some 12287 ∧
    (fillGamma ⟨1 / 2, 0, 0⟩ 4).red[1]? = some 8191 := by
  refine ⟨red_multiplier_one 750 (by decide) (by decide),
    red_multiplier_one 500 (by decide) (by decide), gains_750_half, gains_500 _,
    by norm_num, (sct_for_screen_of_gains [4] 750 _ _ gains_750_half).trans rfl,
    (sct_for_screen_of_gains [4] 500 _ _ (gains_500 _)).trans rfl, ?_, ?_⟩
  · rw [red_getElem? _ 4 1 (by decide)]
    rw [toUShort_eq _ 12287 (by decide) (by decide) (by norm_num [g])]
  · rw [red_getElem? _ 4 1 (by decide)]
    rw [toUShort_eq _ 8191 (by decide) (by decide) (by norm_num [g])]

end Sct
